import Mathlib

/-!
Verification of the ESP memory generator (`memgen.py`) against its
natural-language specification.

The development shallowly embeds the banking planner (`memory.__find_hbanks`,
`memory.__find_vbanks`), the operation/library/request parsers (`parse_op`,
`parse_sram`, `read_techfile`, `read_infile`) and the observable fragments of
the Verilog emitter (`memory.write_verilog`) as executable Lean functions.

Modelling conventions, fixed once here:
* Python machine integers in this program stay tiny (counts up to 16, word
  counts and widths of the requests), so they are embedded as `Nat`.
* Python floats (`area`) are embedded as `ℚ`; the only float operations the
  source performs are products, comparisons and `math.ceil` of quotients of
  small integers, which are exact at the magnitudes the program handles.
  `float('inf')`, the initial best area, is embedded as `none : Option ℚ`.
* Fallible Python code (uncaught `ValueError` / `IndexError` /
  `AttributeError`, and `die_werr`, which prints an ERROR line and exits
  with status 2) is embedded in `Except PyErr`.
* `int(math.ceil(a / b))` on naturals is embedded as `ceilDiv a b`.
-/

/-- Errors a run of the program can produce: uncaught Python exceptions
(which terminate with a traceback and exit status 1) and `die_werr`
(which prints `ERROR: msg` and exits with status 2). -/
inductive PyErr where
  | valueError : PyErr
  | indexError : PyErr
  | attributeError : PyErr
  | werr : String → PyErr
deriving DecidableEq, Repr

deriving instance DecidableEq for Except

/-- Embeds `die_werr(message)`: print the error and exit with status 2. -/
def die_werr {α : Type} (message : String) : Except PyErr α :=
  .error (.werr message)

/-- Embeds Python list indexing `l[i]`, raising `IndexError` out of range. -/
def pyIndex {α : Type} (l : List α) (i : Nat) : Except PyErr α :=
  match l.get? i with
  | some a => .ok a
  | none => .error .indexError

/-- Embeds `int(math.ceil(a / b))` for naturals (exact at the program's
magnitudes; the source would raise `ZeroDivisionError` for `b = 0`, which no
claim exercises). -/
def ceilDiv (a b : Nat) : Nat := (a + b - 1) / b

/-- Embeds `is_power2z`: true if zero or a power of two
(`(n & (n - 1)) == 0`; `Nat` subtraction agrees with Python here since the
Python call sites have `n ≥ 0`, and at `n = 0` both give `0`). -/
def is_power2z (n : Nat) : Bool := (n &&& (n - 1)) == 0

/-- Access pattern of one side of a `memory_operation`: the strings
`"modulo"` and `"unknown"` of the source. -/
inductive pattern where
  | modulo : pattern
  | unknown : pattern
deriving DecidableEq, Repr

/-- Embeds class `sram`: one physical SRAM macro of the technology library. -/
structure sram where
  name : String
  words : Nat
  width : Nat
  area : ℚ
  ports : Nat
deriving DecidableEq, Repr

/-- Embeds class `memory_operation`: one parallel-access descriptor. -/
structure memory_operation where
  rn : Nat
  rp : pattern
  wn : Nat
  wp : pattern
deriving DecidableEq, Repr

/-! ### Banking planner, pass 1 (`memory.__find_hbanks`, first loop) -/

/-- Mutable planner state threaded through the first loop of
`memory.__find_hbanks`, with the source's initial values
`read_interfaces = 1`, `write_interfaces = 1`, `need_dual_port = False`,
`need_parallel_rw = False`. -/
structure hstate where
  read_interfaces : Nat
  write_interfaces : Nat
  need_dual_port : Bool
  need_parallel_rw : Bool
deriving DecidableEq, Repr

/-- One iteration of the first loop of `memory.__find_hbanks`: interface
counts, `need_parallel_rw` (updated before `need_dual_port`, exactly as in
the source) and `need_dual_port`. -/
def pass1Step (s : hstate) (op : memory_operation) : hstate :=
  let ri := max s.read_interfaces op.rn
  let wi := max s.write_interfaces op.wn
  let prw := s.need_parallel_rw || (decide (op.rn > 0) && decide (op.wn > 0))
  let ndp := s.need_dual_port || prw ||
             (decide (op.wn = 2) && decide (op.wp = pattern.unknown)) ||
             (!prw && (decide (op.rn > 1) || decide (op.wn > 1)))
  ⟨ri, wi, ndp, prw⟩

/-- The first loop of `memory.__find_hbanks` over the whole operation list. -/
def pass1 (ops : List memory_operation) : hstate :=
  ops.foldl pass1Step ⟨1, 1, false, false⟩

/-! ### Banking planner, duplication and distribution
(`memory.__find_hbanks`, second and third loops) -/

/-- Per-operation `op_duplication_factor` of `memory.__find_hbanks`
(`int(math.ceil(n / 2))` becomes `(n + 1) / 2`). -/
def op_duplication (op : memory_operation) : Nat :=
  let f : Nat := 1
  let f : Nat :=
    if op.rp = pattern.unknown ∧ op.rn > 1 then
      (if op.wn = 0 then (op.rn + 1) / 2 else op.rn)
    else f
  if op.wp = pattern.unknown ∧ op.wn > 1 then
    (if op.rn = 0 then (op.wn + 1) / 2 else max f op.wn)
  else f

/-- Per-operation `op_distribution_factor` of `memory.__find_hbanks`;
`prw` is the memory's `need_parallel_rw` flag, already final when the
third loop runs. -/
def op_distribution (prw : Bool) (op : memory_operation) : Nat :=
  let f : Nat := 1
  let f : Nat :=
    if op.rp = pattern.modulo ∧ op.rn > 1 then
      (if op.wn ≠ 0 ∨ prw = true then op.rn else op.rn >>> 1)
    else f
  if op.wp = pattern.modulo ∧ op.wn > 1 then
    (if op.rn ≠ 0 ∨ prw = true then max f op.wn else op.wn >>> 1)
  else f

/-- The second loop of `memory.__find_hbanks`: `duplication_factor`,
starting from the initial class value `1`. -/
def duplication_of (ops : List memory_operation) : Nat :=
  ops.foldl (fun a op => max a (op_duplication op)) 1

/-- The third loop of `memory.__find_hbanks`: `distribution_factor`,
starting from the initial class value `1`. -/
def distribution_of (ops : List memory_operation) : Nat :=
  ops.foldl (fun a op => max a (op_distribution (pass1 ops).need_parallel_rw op)) 1

/-! ### Banking planner, macro selection (`memory.__find_vbanks`) -/

/-- Mutable state of `memory.__find_vbanks`: `vbanks`, `hhbanks`,
`bank_type` and the best `area` so far (`none` embeds `float('inf')`). -/
structure vstate where
  vbanks : Nat
  hhbanks : Nat
  bank_type : Option sram
  area : Option ℚ
deriving DecidableEq, Repr

/-- Embeds the comparison `self.area > new_area` with `self.area`
initially `float('inf')`. -/
def areaGt : Option ℚ → ℚ → Bool
  | none, _ => true
  | some a, x => decide (x < a)

/-- One iteration of the macro loop of `memory.__find_vbanks`: skip
single-port macros when a dual port is needed, otherwise compute
`hh`, `v` and `new_area = d * h * hh * v * ram.area` and keep the macro
on strict improvement. -/
def vstep (ndp : Bool) (d h wph width : Nat) (s : vstate) (ram : sram) : vstate :=
  if ndp && decide (ram.ports < 2) then s
  else
    let hh := ceilDiv width ram.width
    let v := ceilDiv wph ram.words
    let new_area : ℚ := (d : ℚ) * (h : ℚ) * (hh : ℚ) * (v : ℚ) * ram.area
    if areaGt s.area new_area then ⟨v, hh, some ram, some new_area⟩ else s

/-- Embeds `memory.__find_vbanks`: fold of `vstep` over the library, from
the initial class values `vbanks = 1`, `hhbanks = 1`, `bank_type = None`,
`area = inf`; `wph` is `words_per_hbank = int(math.ceil(words / hbanks))`. -/
def find_vbanks (ndp : Bool) (d h wph width : Nat) (lib : List sram) : vstate :=
  lib.foldl (vstep ndp d h wph width) ⟨1, 1, none, none⟩

/-- The planner's outputs for one memory request (the fields of class
`memory` that `memory.gen` computes and reports). -/
structure plan where
  read_interfaces : Nat
  write_interfaces : Nat
  need_dual_port : Bool
  need_parallel_rw : Bool
  duplication_factor : Nat
  distribution_factor : Nat
  dbanks : Nat
  hbanks : Nat
  vbanks : Nat
  hhbanks : Nat
  bank_type : Option sram
  area : Option ℚ
deriving DecidableEq, Repr

/-- Embeds the planning part of `memory.gen`: `__find_hbanks` (with
`dbanks = duplication_factor`, `hbanks = distribution_factor`) followed by
`__find_vbanks` against the library. -/
def memory_gen (words width : Nat) (ops : List memory_operation) (lib : List sram) : plan :=
  let s1 := pass1 ops
  let D := duplication_of ops
  let H := distribution_of ops
  let vs := find_vbanks s1.need_dual_port D H (ceilDiv words H) width lib
  { read_interfaces := s1.read_interfaces
    write_interfaces := s1.write_interfaces
    need_dual_port := s1.need_dual_port
    need_parallel_rw := s1.need_parallel_rw
    duplication_factor := D
    distribution_factor := H
    dbanks := D
    hbanks := H
    vbanks := vs.vbanks
    hhbanks := vs.hhbanks
    bank_type := vs.bank_type
    area := vs.area }

/-- Embeds `memory.gen`'s report line `print(str(self.bank_type.name))`:
on a plan with no selected macro this is `None.name`, an uncaught
`AttributeError`. -/
def gen_bank_name (p : plan) : Except PyErr String :=
  match p.bank_type with
  | none => .error .attributeError
  | some m => .ok m.name

/-! ### Concrete library and operations of the spec's scenarios -/

/-- The two-macro library of the spec's concrete scenarios:
`(words=1024, width=32, ports=1, area=1.0)` then
`(words=1024, width=32, ports=2, area=1.8)`, in that order. -/
def libC1 : List sram :=
  [⟨"SRAM_1Kx32_1P", 1024, 32, 1, 1⟩, ⟨"SRAM_1Kx32_2P", 1024, 32, 9/5, 2⟩]

/-- The parsed operation list of request `M 2048 32 0w:4r`. -/
def opsC1 : List memory_operation := [⟨4, pattern.modulo, 0, pattern.modulo⟩]

/-! ### Input parsing (`parse_op`, `parse_sram`, `read_techfile`, `read_infile`)

Python's `re.split(pat, s, re.M|re.I)` passes `re.M|re.I` (= 10) as the
positional `maxsplit` argument, not as flags, so the split patterns
`[a-z]+` and `[0-9]+` stay case-sensitive; `maxsplit = 10` is never reached
by the short tokens the program handles, so the embedding splits without a
bound.  The `re.match(pat, s, re.M|re.I)` calls do receive the flags, so
they are case-insensitive anchored matches. -/

/-- Embeds `s.split(sep)` for a one-character separator: every occurrence
separates, empty pieces are kept. -/
def splitOnChar (sep : Char) : List Char → List (List Char)
  | [] => [[]]
  | c :: cs =>
    let r := splitOnChar sep cs
    if c == sep then
      [] :: r
    else
      match r with
      | [] => [[c]]
      | g :: gs => (c :: g) :: gs

/-- Embeds `re.split('[X]+', s)`: split at maximal nonempty runs of
characters satisfying `p`, keeping empty boundary pieces. -/
def splitSep (p : Char → Bool) : List Char → List (List Char)
  | [] => [[]]
  | c :: cs =>
    let r := splitSep p cs
    if p c then
      match cs with
      | [] => [] :: r
      | c' :: _ => if p c' then r else [] :: r
    else
      match r with
      | [] => [[c]]
      | g :: gs => (c :: g) :: gs

/-- Embeds `int(s)` on the split pieces: a nonempty all-digit string parses,
anything else raises `ValueError` (the pieces fed to `int` by this program
never carry signs, whitespace or underscores). -/
def pyInt (cs : List Char) : Except PyErr Nat :=
  if !cs.isEmpty && cs.all Char.isDigit then
    .ok (cs.foldl (fun n c => 10 * n + (c.toNat - 48)) 0)
  else
    .error .valueError

/-- Embeds `float(s)` as an exact rational: `d+` or `d+.d+`. -/
def pyFloat (cs : List Char) : Except PyErr ℚ :=
  match splitOnChar '.' cs with
  | [ip] => do
      let n ← pyInt ip
      pure (n : ℚ)
  | [ip, fp] => do
      let a ← pyInt ip
      let b ← pyInt fp
      pure ((a : ℚ) + (b : ℚ) / ((10 : ℚ) ^ fp.length))
  | _ => .error .valueError

/-- Embeds `re.match(pat, s, re.M|re.I)` for the literal lowercase patterns
`ru`, `r`, `wu`, `w`: an anchored, case-insensitive match of `pat` against
the start of `s`. -/
def matchCI : List Char → List Char → Bool
  | [], _ => true
  | _ :: _, [] => false
  | p :: ps, c :: cs => (c.toLower == p) && matchCI ps cs

/-- Embeds `parse_op(op, mem_words)`, statement by statement in source
order: the four `re.split`-based extractions (case-sensitive, see the
section comment), the range checks, then the case-insensitive pattern
matches with their validity checks. -/
def parse_op (op : String) (mem_words : Nat) : Except PyErr memory_operation := do
  let item := splitOnChar ':' op.data
  let item0 ← pyIndex item 0
  let item1 ← pyIndex item 1
  let write_number ← pyInt (← pyIndex (splitSep Char.isLower item0) 0)
  let write_pattern_abbrv ← pyIndex (splitSep Char.isDigit item0) 1
  let read_number ← pyInt (← pyIndex (splitSep Char.isLower item1) 0)
  let read_pattern_abbrv ← pyIndex (splitSep Char.isDigit item1) 1
  if read_number > mem_words ∨ write_number > mem_words then
    die_werr ("Too many ports for the specified number of words for " ++ op)
  if read_number > 16 then
    die_werr ("Too many paralle accesses specified for " ++ op)
  let read_pattern ←
    if matchCI ("ru".data) read_pattern_abbrv then
      pure pattern.unknown
    else if matchCI ("r".data) read_pattern_abbrv then
      if !is_power2z read_number then
        die_werr ("Operation " ++ op ++
          " implies known access patter (modulo), but the number of accesses is not a power of 2")
      else
        pure pattern.modulo
    else
      die_werr ("Parallel read access " ++ op ++ " not recognized")
  if write_number > 16 then
    die_werr ("Too many paralle accesses specified for " ++ op)
  let write_pattern ←
    if matchCI ("wu".data) write_pattern_abbrv then do
      if write_number > 2 then
        die_werr ("Too many parallel write accesses with unknown pattern for " ++ op)
      if write_number = 2 ∧ read_number ≠ 0 then
        die_werr ("2 parallel write accesses with unknown pattern for " ++ op ++
          " have non-zero parallel read access")
      pure pattern.unknown
    else if matchCI ("w".data) write_pattern_abbrv then
      if !is_power2z write_number then
        die_werr ("Operation " ++ op ++
          " implies known access patter (modulo), but the number of accesses is not a power of 2")
      else
        pure pattern.modulo
    else
      die_werr ("Parallel write access " ++ op ++ " not recognized")
  return ⟨read_number, read_pattern, write_number, write_pattern⟩

/-- Embeds `s.split()` with no argument: split on whitespace runs and drop
empty pieces. -/
def pySplitWs (cs : List Char) : List (List Char) :=
  (splitSep Char.isWhitespace cs).filter (fun g => !g.isEmpty)

/-- Embeds `parse_sram(s)`: five whitespace-separated fields
`<words> <width> <name> <area> <ports>`; a port count outside `{1, 2}` is a
warning and the macro is skipped (`None`). -/
def parse_sram (s : String) : Except PyErr (Option sram) := do
  let item := pySplitWs s.data
  let words ← pyInt (← pyIndex item 0)
  let width ← pyInt (← pyIndex item 1)
  let name ← pyIndex item 2
  let area ← pyFloat (← pyIndex item 3)
  let ports ← pyInt (← pyIndex item 4)
  if ports < 1 ∨ ports > 2 then
    return none
  return some ⟨String.mk name, words, width, area, ports⟩

/-- Embeds the comment test `re.match(r'#\.*', line, re.M|re.I)` of both
file readers: it matches exactly the lines whose first character is `#`. -/
def isCommentLine (s : String) : Bool :=
  match s.data with
  | '#' :: _ => true
  | _ => false

/-- Embeds one iteration of the line loop of `read_techfile`: the
(discarded) `line.strip()`, the comment test, then `parse_sram` and the
append.  There is no test for blank lines. -/
def read_techfile_line (sram_list : List sram) (line : String) : Except PyErr (List sram) :=
  if isCommentLine line then
    .ok sram_list
  else
    match parse_sram line with
    | .error e => .error e
    | .ok none => .ok sram_list
    | .ok (some ram) => .ok (sram_list ++ [ram])

/-- Embeds class `memory`'s request fields (name, words, width, ops). -/
structure memRequest where
  name : String
  words : Nat
  width : Nat
  ops : List memory_operation
deriving DecidableEq, Repr

/-- Embeds one iteration of the line loop of `read_infile`: split, comment
test, the three header fields, `parse_op` on every remaining token, then
the `memory.__init__` validity checks.  There is no test for blank lines. -/
def read_infile_line (mem_list : List memRequest) (line : String) :
    Except PyErr (List memRequest) := do
  let item := pySplitWs line.data
  if isCommentLine line then
    return mem_list
  let mem_name ← pyIndex item 0
  let mem_words ← pyInt (← pyIndex item 1)
  let mem_width ← pyInt (← pyIndex item 2)
  let mem_ops ← (item.drop 3).mapM (fun t => parse_op (String.mk t) mem_words)
  if mem_words = 0 then
    die_werr ("Memory " ++ String.mk mem_name ++ " has illegal number of words")
  if mem_width = 0 then
    die_werr ("Memory " ++ String.mk mem_name ++ " has illegal bit-width")
  if mem_ops.isEmpty then
    die_werr ("No operation specified for memory \"" ++ String.mk mem_name ++ "\"")
  return mem_list ++ [⟨String.mk mem_name, mem_words, mem_width, mem_ops⟩]

/-! ### Emitter observables (`memory.write_verilog`) -/

/-- The five scalar external ports `memory.write_verilog` declares for
write interface `i` (lines 323-328 of the source), in order. -/
def writePorts (name : String) (i : Nat) : List String :=
  [name ++ "_CE" ++ toString i, name ++ "_A" ++ toString i, name ++ "_D" ++ toString i,
   name ++ "_WE" ++ toString i, name ++ "_WEM" ++ toString i]

/-- The three scalar external ports `memory.write_verilog` declares for
read interface `i` (lines 329-332 of the source), in order. -/
def readPorts (name : String) (i : Nat) : List String :=
  [name ++ "_CE" ++ toString i, name ++ "_A" ++ toString i, name ++ "_Q" ++ toString i]

/-- The full external port list of the emitted module: `CLK`, then the
write tuples for `i in range(0, write_interfaces)`, then the read tuples
for `i in range(write_interfaces, write_interfaces + read_interfaces)`. -/
def modulePorts (name : String) (W R : Nat) : List String :=
  "CLK" :: (((List.range' 0 W).map (writePorts name)).flatten ++
            ((List.range' W R).map (readPorts name)).flatten)

/-- The readback selector `assign ctrld[ri] = ...` emitted for a read
interface (source lines 397-402): `ri` is the global interface index
`write_interfaces + local read index`, and the value is
`ri % dbanks` when `dbanks > 1`, else `0`. -/
def ctrldVal (dbanks ri : Nat) : Nat :=
  if dbanks > 1 then ri % dbanks else 0

/-- The duplicated bank set the `<N>ru` control kernels drive for the read
with LOCAL index `ri` (source lines 504-506 and 515-518:
`ri % self.dbanks` with `ri` in `range(0, op.rn)`). -/
def ruReadSet (dbanks ri : Nat) : Nat := ri % dbanks

/-! ### Specification-side characterization of the macro selection

`selectMacro` is written from the spec's words for Pass 3 (retain the
qualifying macro with the smallest estimated area, ties broken by
first-seen order); the fold of `vstep` is proved equal to it below. -/

/-- A macro qualifies unless a dual port is needed and it has fewer than
two ports (the skip test of `memory.__find_vbanks`, negated). -/
def qualifies (ndp : Bool) (m : sram) : Bool :=
  !(ndp && decide (m.ports < 2))

/-- The estimated area `d * h * hh * v * ram.area` of one candidate macro,
with `hh = ceil(width / ram.width)` and `v = ceil(words_per_hbank / ram.words)`. -/
def estArea (d h wph width : Nat) (m : sram) : ℚ :=
  (d : ℚ) * (h : ℚ) * ((ceilDiv width m.width : Nat) : ℚ) *
    ((ceilDiv wph m.words : Nat) : ℚ) * m.area

/-- The `vstate` recorded when macro `m` with estimated area `a` wins. -/
def chosenState (wph width : Nat) (m : sram) (a : ℚ) : vstate :=
  ⟨ceilDiv wph m.words, ceilDiv width m.width, some m, some a⟩

/-- Specification-side selection: the first-seen qualifying macro of
minimal estimated area, with its area (`none` when no macro qualifies). -/
def selectMacro (ndp : Bool) (d h wph width : Nat) : List sram → Option (sram × ℚ)
  | [] => none
  | m :: rest =>
    if ndp && decide (m.ports < 2) then
      selectMacro ndp d h wph width rest
    else
      match selectMacro ndp d h wph width rest with
      | none => some (m, estArea d h wph width m)
      | some (m', a') =>
        if estArea d h wph width m ≤ a' then some (m, estArea d h wph width m)
        else some (m', a')

/-- The estimated area of a candidate macro at the parameters the planner
passes to `memory.__find_vbanks` for a given request. -/
def planEstArea (words width : Nat) (ops : List memory_operation) (lib : List sram)
    (m : sram) : ℚ :=
  estArea (memory_gen words width ops lib).dbanks (memory_gen words width ops lib).hbanks
    (ceilDiv words (memory_gen words width ops lib).hbanks) width m

/-- The one-macro, single-port library of the spec's scenario 5. -/
def libSP : List sram := [⟨"SRAM_1Kx32_1P", 1024, 32, 1, 1⟩]

/-- The parsed operation list of token `1w:1r`. -/
def ops1w1r : List memory_operation := [⟨1, pattern.modulo, 1, pattern.modulo⟩]

/-- The parsed operation list of token `1w:0r`. -/
def ops1w0r : List memory_operation := [⟨0, pattern.modulo, 1, pattern.modulo⟩]

/-- The operation list of the spec's four-unknown-reads scenario, i.e. the
parse of the token `0w:4ru`. -/
def ops4ru : List memory_operation := [⟨4, pattern.unknown, 0, pattern.modulo⟩]

/-- The parsed operation list of token `0w:16ru`. -/
def ops16ru : List memory_operation := [⟨16, pattern.unknown, 0, pattern.modulo⟩]

/-! ## Lemmas -/

lemma pass1_foldl_read : ∀ (ops : List memory_operation) (s : hstate),
    (ops.foldl pass1Step s).read_interfaces =
      ops.foldl (fun a op => max a op.rn) s.read_interfaces := by
  intro ops
  induction ops with
  | nil => intro s; rfl
  | cons op ops ih => intro s; exact ih (pass1Step s op)

lemma pass1_foldl_write : ∀ (ops : List memory_operation) (s : hstate),
    (ops.foldl pass1Step s).write_interfaces =
      ops.foldl (fun a op => max a op.wn) s.write_interfaces := by
  intro ops
  induction ops with
  | nil => intro s; rfl
  | cons op ops ih => intro s; exact ih (pass1Step s op)

lemma le_foldl_max {α : Type} (f : α → Nat) :
    ∀ (l : List α) (init : Nat), init ≤ l.foldl (fun a y => max a (f y)) init := by
  intro l
  induction l with
  | nil => intro init; exact Nat.le_refl _
  | cons y l ih => intro init; exact le_trans (Nat.le_max_left init (f y)) (ih _)

lemma foldl_max_le {α : Type} (f : α → Nat) :
    ∀ (l : List α) (init : Nat) (x : α), x ∈ l →
      f x ≤ l.foldl (fun a y => max a (f y)) init := by
  intro l
  induction l with
  | nil => intro init x hx; cases hx
  | cons y l ih =>
    intro init x hx
    rcases List.mem_cons.mp hx with h | h
    · subst h; exact le_trans (Nat.le_max_right init (f x)) (le_foldl_max f l _)
    · exact ih _ x h

lemma foldl_max_attained {α : Type} (f : α → Nat) :
    ∀ (l : List α) (init : Nat),
      l.foldl (fun a y => max a (f y)) init = init ∨
        ∃ x ∈ l, l.foldl (fun a y => max a (f y)) init = f x := by
  intro l
  induction l with
  | nil => intro init; exact Or.inl rfl
  | cons y l ih =>
    intro init
    rcases ih (max init (f y)) with h | ⟨x, hx, hfx⟩
    · rcases max_choice init (f y) with hm | hm
      · exact Or.inl (by rw [List.foldl_cons, h, hm])
      · exact Or.inr ⟨y, List.mem_cons_self _ _, by rw [List.foldl_cons, h, hm]⟩
    · exact Or.inr ⟨x, List.mem_cons_of_mem _ hx, by rw [List.foldl_cons, hfx]⟩

lemma foldl_max_eq_max_over {α : Type} (f : α → Nat) (hf : ∀ x, 1 ≤ f x)
    (l : List α) (hl : l ≠ []) :
    (∀ x ∈ l, f x ≤ l.foldl (fun a y => max a (f y)) 1) ∧
    (∃ x ∈ l, l.foldl (fun a y => max a (f y)) 1 = f x) := by
  refine ⟨fun x hx => foldl_max_le f l 1 x hx, ?_⟩
  rcases foldl_max_attained f l 1 with h | h
  · rcases l with _ | ⟨y, l⟩
    · exact absurd rfl hl
    · refine ⟨y, List.mem_cons_self _ _, ?_⟩
      have h1 : f y ≤ (y :: l).foldl (fun a z => max a (f z)) 1 :=
        foldl_max_le f _ 1 y (List.mem_cons_self _ _)
      have h2 := hf y
      rw [h] at h1 ⊢
      omega
  · exact h

lemma one_le_op_duplication (op : memory_operation) : 1 ≤ op_duplication op := by
  unfold op_duplication
  split_ifs
  all_goals dsimp only
  all_goals omega

lemma one_le_op_distribution (prw : Bool) (op : memory_operation) :
    1 ≤ op_distribution prw op := by
  unfold op_distribution
  split_ifs
  all_goals dsimp only
  all_goals try simp only [Nat.shiftRight_eq_div_pow, pow_one]
  all_goals omega

lemma planC1_eval : memory_gen 2048 32 opsC1 libC1 =
    { read_interfaces := 4, write_interfaces := 1,
      need_dual_port := true, need_parallel_rw := false,
      duplication_factor := 1, distribution_factor := 2,
      dbanks := 1, hbanks := 2, vbanks := 1, hhbanks := 1,
      bank_type := some ⟨"SRAM_1Kx32_2P", 1024, 32, 9/5, 2⟩,
      area := some (18/5) } := by
  simp +decide [memory_gen, pass1, duplication_of, distribution_of, find_vbanks,
    List.foldl, pass1Step, op_duplication, op_distribution, vstep, areaGt,
    ceilDiv, libC1, opsC1]
  norm_num

/-! ## Claim theorems -/

/-- C1 (counterexample): against the two-macro library, planning
`M 2048 32 0w:4r` does NOT yield `V = 2` with total area `7.2`; the claim's
stated vertical-stacking factor and area are false on the code. -/
theorem plan_M_2048_32_0w4r_claim_false :
    ¬((memory_gen 2048 32 opsC1 libC1).vbanks = 2 ∧
      (memory_gen 2048 32 opsC1 libC1).area = some (36/5)) := by
  rw [planC1_eval]
  intro hc
  exact absurd hc.1 (by decide)

/-- C1 (amended): planning the request `M 2048 32 0w:4r` against the
two-macro library yields `need_dual_port = true`, `D = 1`, `H = 2`,
`V = 1` (2048 words over 2 hbanks is 1024 words per hbank, which fits one
1024-word macro), `HH = 1`, selects the dual-port macro, and reports total
area `1 * 2 * 1 * 1 * 1.8 = 3.6`. -/
theorem plan_M_2048_32_0w4r_amended :
    parse_op ("0w:4r") 2048 = .ok ⟨4, pattern.modulo, 0, pattern.modulo⟩ ∧
    (memory_gen 2048 32 opsC1 libC1).need_dual_port = true ∧
    (memory_gen 2048 32 opsC1 libC1).duplication_factor = 1 ∧
    (memory_gen 2048 32 opsC1 libC1).distribution_factor = 2 ∧
    (memory_gen 2048 32 opsC1 libC1).hbanks = 2 ∧
    (memory_gen 2048 32 opsC1 libC1).vbanks = 1 ∧
    (memory_gen 2048 32 opsC1 libC1).hhbanks = 1 ∧
    (memory_gen 2048 32 opsC1 libC1).bank_type =
      some ⟨"SRAM_1Kx32_2P", 1024, 32, 9/5, 2⟩ ∧
    (memory_gen 2048 32 opsC1 libC1).area = some (18/5) := by
  rw [planC1_eval]
  exact ⟨by decide, rfl, rfl, rfl, rfl, rfl, rfl, rfl, rfl⟩

/-- C2: after planning, `duplication_factor` is the maximum over the
request's operations of the per-op duplication contribution, and
`distribution_factor` is the maximum over the operations of the per-op
distribution contribution (computed with the planner's final
`need_parallel_rw` flag), exactly as `memory.__find_hbanks` folds them. -/
theorem factors_are_max_over_ops (words width : Nat) (ops : List memory_operation)
    (lib : List sram) (h : ops ≠ []) :
    ((∀ op ∈ ops, op_duplication op ≤ (memory_gen words width ops lib).duplication_factor) ∧
     (∃ op ∈ ops, (memory_gen words width ops lib).duplication_factor = op_duplication op)) ∧
    ((∀ op ∈ ops, op_distribution (memory_gen words width ops lib).need_parallel_rw op ≤
        (memory_gen words width ops lib).distribution_factor) ∧
     (∃ op ∈ ops, (memory_gen words width ops lib).distribution_factor =
        op_distribution (memory_gen words width ops lib).need_parallel_rw op)) := by
  exact ⟨foldl_max_eq_max_over op_duplication one_le_op_duplication ops h,
         foldl_max_eq_max_over (op_distribution (pass1 ops).need_parallel_rw)
           (one_le_op_distribution _) ops h⟩

/-- Witness for C2 at the concrete request `M 2048 32 0w:4r` against the
two-macro library. -/
theorem factors_are_max_over_ops_witness :
    opsC1 ≠ [] ∧
    (((∀ op ∈ opsC1, op_duplication op ≤ (memory_gen 2048 32 opsC1 libC1).duplication_factor) ∧
      (∃ op ∈ opsC1, (memory_gen 2048 32 opsC1 libC1).duplication_factor = op_duplication op)) ∧
     ((∀ op ∈ opsC1, op_distribution (memory_gen 2048 32 opsC1 libC1).need_parallel_rw op ≤
         (memory_gen 2048 32 opsC1 libC1).distribution_factor) ∧
      (∃ op ∈ opsC1, (memory_gen 2048 32 opsC1 libC1).distribution_factor =
         op_distribution (memory_gen 2048 32 opsC1 libC1).need_parallel_rw op))) :=
  ⟨by decide, factors_are_max_over_ops 2048 32 opsC1 libC1 (by decide)⟩

/-- C3 (counterexample): for the request whose single operation is the
parse of `1w:0r` (all operations have `rn = 0`), `read_interfaces` is not
`0`: the planner starts the fold at the class value `1`. -/
theorem read_interfaces_zero_false :
    (memory_gen 1024 32 ops1w0r libC1).read_interfaces ≠ 0 := by decide

/-- C3 (amended): `read_interfaces` equals the maximum of `1` and the
maximum `rn` across the operations (a fold of `max` started at the class
value `1`), and likewise `write_interfaces` with `wn`; in particular for a
request whose operations all have `rn = 0`, `read_interfaces` is `1`. -/
theorem interfaces_max_with_one (words width : Nat) (ops : List memory_operation)
    (lib : List sram) :
    ((memory_gen words width ops lib).read_interfaces =
        ops.foldl (fun a op => max a op.rn) 1 ∧
     (∀ op ∈ ops, op.rn ≤ (memory_gen words width ops lib).read_interfaces) ∧
     ((memory_gen words width ops lib).read_interfaces = 1 ∨
        ∃ op ∈ ops, (memory_gen words width ops lib).read_interfaces = op.rn)) ∧
    ((memory_gen words width ops lib).write_interfaces =
        ops.foldl (fun a op => max a op.wn) 1 ∧
     (∀ op ∈ ops, op.wn ≤ (memory_gen words width ops lib).write_interfaces) ∧
     ((memory_gen words width ops lib).write_interfaces = 1 ∨
        ∃ op ∈ ops, (memory_gen words width ops lib).write_interfaces = op.wn)) := by
  have hr : (memory_gen words width ops lib).read_interfaces =
      ops.foldl (fun a op => max a op.rn) 1 := pass1_foldl_read ops ⟨1, 1, false, false⟩
  have hw : (memory_gen words width ops lib).write_interfaces =
      ops.foldl (fun a op => max a op.wn) 1 := pass1_foldl_write ops ⟨1, 1, false, false⟩
  refine ⟨⟨hr, ?_, ?_⟩, ⟨hw, ?_, ?_⟩⟩
  · intro op hop; rw [hr]; exact foldl_max_le (fun op => op.rn) ops 1 op hop
  · rw [hr]; exact foldl_max_attained (fun op => op.rn) ops 1
  · intro op hop; rw [hw]; exact foldl_max_le (fun op => op.wn) ops 1 op hop
  · rw [hw]; exact foldl_max_attained (fun op => op.wn) ops 1

/-- C5: for request `M 4096 64 1w:1r` against a library whose only macro is
single-port, the planner needs a dual port, skips every macro, and leaves
`bank_type = None` and `area = inf`; `memory.gen` then dereferences
`self.bank_type.name`, an uncaught `AttributeError` (there is no
`NoSuitableMacro` report and no exit status 2). -/
theorem no_suitable_macro_crashes :
    parse_op ("1w:1r") 4096 = .ok ⟨1, pattern.modulo, 1, pattern.modulo⟩ ∧
    (memory_gen 4096 64 ops1w1r libSP).need_dual_port = true ∧
    (memory_gen 4096 64 ops1w1r libSP).bank_type = none ∧
    (memory_gen 4096 64 ops1w1r libSP).area = none ∧
    gen_bank_name (memory_gen 4096 64 ops1w1r libSP) = .error .attributeError := by
  decide

/-- C6: the lowercase token `1w:1r` parses, but its uppercased form `1W:1R`
does not parse to the same Operation: `re.split` receives `re.M|re.I` as
`maxsplit`, so the digit extraction is case-sensitive and `int('1W')`
raises an uncaught `ValueError`. -/
theorem uppercase_op_crashes :
    parse_op ("1w:1r") 1024 = .ok ⟨1, pattern.modulo, 1, pattern.modulo⟩ ∧
    parse_op ("1W:1R") 1024 = .error .valueError := by decide

/-- C7 (counterexample): the token `16ru:0w` is NOT accepted: the parser
reads the write pattern from the first half, `ru` matches neither `wu` nor
`w`... in fact it dies even earlier, on the read half `0w`, whose pattern
`w` is not a read pattern. -/
theorem op_16ru_0w_rejected :
    parse_op ("16ru:0w") 1024 =
      .error (.werr ("Parallel read access 16ru:0w not recognized")) := by decide

/-- C7 (amended): operation tokens are `<write>:<read>`, so the sixteen
unknown-pattern reads are requested as `0w:16ru`; that token is accepted
by the operation parser, plans against the two-macro library (the
dual-port macro is selected, so `memory.gen`'s report dereferences a real
macro instead of crashing), and emits successfully: with the planned
`write_interfaces = 1` and `read_interfaces = 16` the emitted module
declares `CLK`, one five-port write tuple and sixteen three-port read
tuples, `1 + 5 * 1 + 3 * 16 = 54` scalar external ports.  Both `16ru:0w`
and `2wu:1r` are rejected as invalid operations. -/
theorem op_boundary_tokens_amended :
    parse_op ("0w:16ru") 1024 = .ok ⟨16, pattern.unknown, 0, pattern.modulo⟩ ∧
    (memory_gen 1024 32 ops16ru libC1).need_dual_port = true ∧
    (memory_gen 1024 32 ops16ru libC1).duplication_factor = 8 ∧
    (memory_gen 1024 32 ops16ru libC1).bank_type =
      some ⟨"SRAM_1Kx32_2P", 1024, 32, 9/5, 2⟩ ∧
    gen_bank_name (memory_gen 1024 32 ops16ru libC1) = .ok ("SRAM_1Kx32_2P") ∧
    (memory_gen 1024 32 ops16ru libC1).write_interfaces = 1 ∧
    (memory_gen 1024 32 ops16ru libC1).read_interfaces = 16 ∧
    (modulePorts ("M") (memory_gen 1024 32 ops16ru libC1).write_interfaces
        (memory_gen 1024 32 ops16ru libC1).read_interfaces).length =
      1 + 5 * 1 + 3 * 16 ∧
    ((modulePorts ("M") (memory_gen 1024 32 ops16ru libC1).write_interfaces
        (memory_gen 1024 32 ops16ru libC1).read_interfaces).take 1 = ["CLK"]) ∧
    parse_op ("16ru:0w") 1024 =
      .error (.werr ("Parallel read access 16ru:0w not recognized")) ∧
    parse_op ("2wu:1r") 1024 =
      .error (.werr ("2 parallel write accesses with unknown pattern for 2wu:1r have non-zero parallel read access")) := by
  refine ⟨by decide, by decide, by decide, rfl, rfl, by decide, by decide, by decide,
    by decide, by decide, by decide⟩

/-- C8: lines beginning with `#` are ignored by both file readers, but a
blank line is NOT ignored: `line.strip()` discards its result, there is no
emptiness test, and `line.split()[0]` raises an uncaught `IndexError`. -/
theorem blank_and_comment_lines_eval :
    read_techfile_line [] ("# a comment") = .ok [] ∧
    read_infile_line [] ("# a comment") = .ok [] ∧
    read_techfile_line [] ("\n") = .error .indexError ∧
    read_infile_line [] ("\n") = .error .indexError := by decide

/-- C10: for the planned request `M 1024 32 0w:4ru` (the spec's `4ru`
scenario) the plan has `D = dbanks = 2` and `W = write_interfaces = 1`;
the `<N>ru` control kernel drives the read with local index `0` on
duplicated bank set `0 % D = 0`, but the emitted readback selector for
that interface is `ctrld[W + 0] = (W + 0) % D = 1`: the two duplicated-set
indices differ, so the claimed equality fails on the code. -/
theorem ru_readback_set_mismatch :
    (memory_gen 1024 32 ops4ru libC1).dbanks = 2 ∧
    (memory_gen 1024 32 ops4ru libC1).write_interfaces = 1 ∧
    ruReadSet (memory_gen 1024 32 ops4ru libC1).dbanks 0 = 0 ∧
    ctrldVal (memory_gen 1024 32 ops4ru libC1).dbanks
      ((memory_gen 1024 32 ops4ru libC1).write_interfaces + 0) = 1 ∧
    ruReadSet (memory_gen 1024 32 ops4ru libC1).dbanks 0 ≠
      ctrldVal (memory_gen 1024 32 ops4ru libC1).dbanks
        ((memory_gen 1024 32 ops4ru libC1).write_interfaces + 0) := by decide

/-! ## Macro selection: the fold of `vstep` computes the first-seen minimum -/

lemma areaGt_lt (s : Option ℚ) (x y : ℚ) (hx : areaGt s x = true) (hyx : y < x) :
    areaGt s y = true := by
  cases s with
  | none => rfl
  | some b =>
    simp only [areaGt, decide_eq_true_eq] at hx ⊢
    exact lt_trans hyx hx

lemma areaGt_false_le (s : Option ℚ) (x y : ℚ) (hx : areaGt s x = false) (hxy : x ≤ y) :
    areaGt s y = false := by
  cases s with
  | none => simp [areaGt] at hx
  | some b =>
    simp only [areaGt, decide_eq_false_iff_not, not_lt] at hx ⊢
    exact le_trans hx hxy

lemma selectMacro_cons (ndp : Bool) (d h wph width : Nat) (m : sram) (rest : List sram) :
    selectMacro ndp d h wph width (m :: rest) =
      (if ndp && decide (m.ports < 2) then
        selectMacro ndp d h wph width rest
      else
        match selectMacro ndp d h wph width rest with
        | none => some (m, estArea d h wph width m)
        | some (m', a') =>
          if estArea d h wph width m ≤ a' then some (m, estArea d h wph width m)
          else some (m', a')) := rfl

lemma vstep_eq (ndp : Bool) (d h wph width : Nat) (s : vstate) (m : sram) :
    vstep ndp d h wph width s m =
      (if ndp && decide (m.ports < 2) then s
       else if areaGt s.area (estArea d h wph width m) then
         chosenState wph width m (estArea d h wph width m)
       else s) := rfl

lemma foldl_vstep_eq_selectMacro (ndp : Bool) (d h wph width : Nat) :
    ∀ (lib : List sram) (s : vstate),
      lib.foldl (vstep ndp d h wph width) s =
        (match selectMacro ndp d h wph width lib with
         | none => s
         | some (m, a) => if areaGt s.area a then chosenState wph width m a else s) := by
  intro lib
  induction lib with
  | nil => intro s; rfl
  | cons m rest ih =>
    intro s
    rw [List.foldl_cons, selectMacro_cons]
    by_cases hq : (ndp && decide (m.ports < 2)) = true
    · rw [if_pos hq]
      have hstep : vstep ndp d h wph width s m = s := by rw [vstep_eq, if_pos hq]
      rw [hstep, ih s]
    · rw [if_neg hq]
      by_cases hg : areaGt s.area (estArea d h wph width m) = true
      · have hstep : vstep ndp d h wph width s m =
            chosenState wph width m (estArea d h wph width m) := by
          rw [vstep_eq, if_neg hq, if_pos hg]
        rw [hstep, ih]
        rcases hrest : selectMacro ndp d h wph width rest with _ | ⟨m', a'⟩
        · dsimp only
          rw [if_pos hg]
        · dsimp only
          by_cases hle : estArea d h wph width m ≤ a'
          · rw [if_pos hle]
            dsimp only
            rw [if_pos hg]
            have hfalse : areaGt (chosenState wph width m (estArea d h wph width m)).area a' =
                false := by
              simp only [chosenState, areaGt, decide_eq_false_iff_not, not_lt]
              exact hle
            rw [hfalse]
            simp
          · rw [if_neg hle]
            dsimp only
            have hlt : a' < estArea d h wph width m := lt_of_not_le hle
            have htrue : areaGt (chosenState wph width m (estArea d h wph width m)).area a' =
                true := by
              simp only [chosenState, areaGt, decide_eq_true_eq]
              exact hlt
            have htrue2 : areaGt s.area a' = true := areaGt_lt _ _ _ hg hlt
            rw [htrue, htrue2]
            simp
      · have hgf : areaGt s.area (estArea d h wph width m) = false := by
          revert hg
          cases areaGt s.area (estArea d h wph width m) <;> simp
        have hstep : vstep ndp d h wph width s m = s := by
          rw [vstep_eq, if_neg hq, if_neg hg]
        rw [hstep, ih]
        rcases hrest : selectMacro ndp d h wph width rest with _ | ⟨m', a'⟩
        · dsimp only
          rw [if_neg hg]
        · dsimp only
          by_cases hle : estArea d h wph width m ≤ a'
          · rw [if_pos hle]
            dsimp only
            rw [if_neg hg]
            have hfalse : areaGt s.area a' = false := areaGt_false_le _ _ _ hgf hle
            rw [hfalse]
            simp
          · rw [if_neg hle]

lemma selectMacro_none (ndp : Bool) (d h wph width : Nat) :
    ∀ lib : List sram, selectMacro ndp d h wph width lib = none →
      ∀ m ∈ lib, (ndp && decide (m.ports < 2)) = true := by
  intro lib
  induction lib with
  | nil => intro _ m hm; cases hm
  | cons m0 rest ih =>
    intro hsel m hm
    by_cases hq : (ndp && decide (m0.ports < 2)) = true
    · have hsel' : selectMacro ndp d h wph width rest = none := by
        unfold selectMacro at hsel; rw [if_pos hq] at hsel; exact hsel
      rcases List.mem_cons.mp hm with hm0 | hm'
      · rw [hm0]; exact hq
      · exact ih hsel' m hm'
    · exfalso
      unfold selectMacro at hsel
      rw [if_neg hq] at hsel
      rcases hr : selectMacro ndp d h wph width rest with _ | ⟨m', a'⟩ <;> rw [hr] at hsel
      · simp at hsel
      · dsimp only at hsel
        split_ifs at hsel

lemma selectMacro_spec (ndp : Bool) (d h wph width : Nat) :
    ∀ (lib : List sram) (m : sram) (a : ℚ),
      selectMacro ndp d h wph width lib = some (m, a) →
      a = estArea d h wph width m ∧ (ndp && decide (m.ports < 2)) = false ∧
      ∃ l₁ l₂, lib = l₁ ++ m :: l₂ ∧
        (∀ m' ∈ l₁, (ndp && decide (m'.ports < 2)) = false →
          a < estArea d h wph width m') ∧
        (∀ m' ∈ l₂, (ndp && decide (m'.ports < 2)) = false →
          a ≤ estArea d h wph width m') := by
  intro lib
  induction lib with
  | nil => intro m a hsel; simp [selectMacro] at hsel
  | cons m0 rest ih =>
    intro m a hsel
    rw [selectMacro_cons] at hsel
    by_cases hq : (ndp && decide (m0.ports < 2)) = true
    · rw [if_pos hq] at hsel
      obtain ⟨ha, hqual, l₁, l₂, hdec, hl₁, hl₂⟩ := ih m a hsel
      refine ⟨ha, hqual, m0 :: l₁, l₂, ?_, ?_, hl₂⟩
      · rw [List.cons_append, hdec]
      · intro m' hm' hq'
        rcases List.mem_cons.mp hm' with hm0 | hmem
        · subst hm0; simp [hq] at hq'
        · exact hl₁ m' hmem hq'
    · rw [if_neg hq] at hsel
      have hqf : (ndp && decide (m0.ports < 2)) = false := by
        revert hq; cases ndp && decide (m0.ports < 2) <;> simp
      rcases hr : selectMacro ndp d h wph width rest with _ | ⟨m'', a''⟩ <;>
        rw [hr] at hsel
      · dsimp only at hsel
        rw [Option.some.injEq, Prod.mk.injEq] at hsel
        obtain ⟨hm0, ha0⟩ := hsel
        subst hm0
        refine ⟨ha0.symm, hqf, [], rest, rfl, ?_, ?_⟩
        · intro m' hm'; exact absurd hm' (List.not_mem_nil m')
        · intro m' hm' hq'
          have := selectMacro_none ndp d h wph width rest hr m' hm'
          simp [this] at hq'
      · dsimp only at hsel
        obtain ⟨ha'', hq'', l₁, l₂, hdec, hl₁, hl₂⟩ := ih m'' a'' hr
        by_cases hle : estArea d h wph width m0 ≤ a''
        · rw [if_pos hle] at hsel
          rw [Option.some.injEq, Prod.mk.injEq] at hsel
          obtain ⟨hm0, ha0⟩ := hsel
          subst hm0
          refine ⟨ha0.symm, hqf, [], rest, rfl, ?_, ?_⟩
          · intro m' hm'; exact absurd hm' (List.not_mem_nil m')
          · intro m' hm' hq'
            rw [hdec] at hm'
            rcases List.mem_append.mp hm' with hmem | hmem
            · have hgt := hl₁ m' hmem hq'
              rw [← ha0]
              exact le_of_lt (lt_of_le_of_lt hle hgt)
            · rcases List.mem_cons.mp hmem with hub | hmem2
              · rw [hub, ← ha'', ← ha0]
                exact hle
              · have hge := hl₂ m' hmem2 hq'
                rw [← ha0]
                exact le_trans hle hge
        · rw [if_neg hle] at hsel
          rw [Option.some.injEq, Prod.mk.injEq] at hsel
          obtain ⟨hm0, ha0⟩ := hsel
          subst hm0
          subst ha0
          refine ⟨ha'', hq'', m0 :: l₁, l₂, ?_, ?_, hl₂⟩
          · rw [List.cons_append, hdec]
          · intro m' hm' hq'
            rcases List.mem_cons.mp hm' with hm0' | hmem
            · rw [hm0']
              exact lt_of_not_le hle
            · exact hl₁ m' hmem hq'

lemma qualifies_false (ndp : Bool) (m : sram) (h : qualifies ndp m = true) :
    (ndp && decide (m.ports < 2)) = false := by
  revert h
  unfold qualifies
  cases ndp && decide (m.ports < 2) <;> simp

lemma find_vbanks_spec (ndp : Bool) (d h wph width : Nat) (lib : List sram)
    (hex : ∃ m0 ∈ lib, (ndp && decide (m0.ports < 2)) = false) :
    ∃ m, find_vbanks ndp d h wph width lib =
        chosenState wph width m (estArea d h wph width m) ∧
      (ndp && decide (m.ports < 2)) = false ∧
      (∀ m' ∈ lib, (ndp && decide (m'.ports < 2)) = false →
        estArea d h wph width m ≤ estArea d h wph width m') ∧
      ∃ l₁ l₂, lib = l₁ ++ m :: l₂ ∧
        ∀ m' ∈ l₁, (ndp && decide (m'.ports < 2)) = false →
          estArea d h wph width m < estArea d h wph width m' := by
  obtain ⟨m0, hm0, h0⟩ := hex
  rcases hsel : selectMacro ndp d h wph width lib with _ | ⟨m, a⟩
  · exact absurd (selectMacro_none ndp d h wph width lib hsel m0 hm0)
      (by rw [h0]; exact Bool.false_ne_true)
  · obtain ⟨ha, hqual, l₁, l₂, hdec, hl₁, hl₂⟩ :=
      selectMacro_spec ndp d h wph width lib m a hsel
    subst ha
    refine ⟨m, ?_, hqual, ?_, l₁, l₂, hdec, hl₁⟩
    · unfold find_vbanks
      rw [foldl_vstep_eq_selectMacro, hsel]
      rfl
    · intro m' hmem hq'
      rw [hdec] at hmem
      rcases List.mem_append.mp hmem with h1 | h1
      · exact le_of_lt (hl₁ m' h1 hq')
      · rcases List.mem_cons.mp h1 with rfl | h2
        · exact le_refl _
        · exact hl₂ m' h2 hq'

/-- C4: whenever at least one library macro qualifies, the plan's
`bank_type` is a qualifying macro of the library minimizing the estimated
area `D * H * V * HH * m.area` (with `HH = ceil(width / m.width)` and
`V = ceil(ceil(words / H) / m.words)` computed per macro), ties are broken
in favor of the first-seen macro, and the reported area equals
`D * H * V * HH * bank_type.area` for the retained macro. -/
theorem bank_selection_minimizes_area (words width : Nat) (ops : List memory_operation)
    (lib : List sram)
    (hex : ∃ m0 ∈ lib, qualifies (memory_gen words width ops lib).need_dual_port m0 = true) :
    ∃ m, (memory_gen words width ops lib).bank_type = some m ∧
      qualifies (memory_gen words width ops lib).need_dual_port m = true ∧
      (memory_gen words width ops lib).hhbanks = ceilDiv width m.width ∧
      (memory_gen words width ops lib).vbanks =
        ceilDiv (ceilDiv words (memory_gen words width ops lib).hbanks) m.words ∧
      (memory_gen words width ops lib).area = some
        (((memory_gen words width ops lib).dbanks : ℚ) *
          ((memory_gen words width ops lib).hbanks : ℚ) *
          ((memory_gen words width ops lib).vbanks : ℚ) *
          ((memory_gen words width ops lib).hhbanks : ℚ) * m.area) ∧
      (∀ m' ∈ lib, qualifies (memory_gen words width ops lib).need_dual_port m' = true →
        planEstArea words width ops lib m ≤ planEstArea words width ops lib m') ∧
      (∃ l₁ l₂, lib = l₁ ++ m :: l₂ ∧
        ∀ m' ∈ l₁, qualifies (memory_gen words width ops lib).need_dual_port m' = true →
          planEstArea words width ops lib m < planEstArea words width ops lib m') := by
  obtain ⟨m0, hm0, hq0⟩ := hex
  obtain ⟨m, hres, hqual, hmin, l₁, l₂, hdec, hfirst⟩ :=
    find_vbanks_spec (memory_gen words width ops lib).need_dual_port
      (memory_gen words width ops lib).dbanks (memory_gen words width ops lib).hbanks
      (ceilDiv words (memory_gen words width ops lib).hbanks) width lib
      ⟨m0, hm0, qualifies_false _ _ hq0⟩
  refine ⟨m, ?_, ?_, ?_, ?_, ?_, ?_, l₁, l₂, hdec, ?_⟩
  · show (find_vbanks (memory_gen words width ops lib).need_dual_port
        (memory_gen words width ops lib).dbanks (memory_gen words width ops lib).hbanks
        (ceilDiv words (memory_gen words width ops lib).hbanks) width lib).bank_type = some m
    rw [hres]
    rfl
  · unfold qualifies
    rw [hqual]
    rfl
  · show (find_vbanks (memory_gen words width ops lib).need_dual_port
        (memory_gen words width ops lib).dbanks (memory_gen words width ops lib).hbanks
        (ceilDiv words (memory_gen words width ops lib).hbanks) width lib).hhbanks =
      ceilDiv width m.width
    rw [hres]
    rfl
  · show (find_vbanks (memory_gen words width ops lib).need_dual_port
        (memory_gen words width ops lib).dbanks (memory_gen words width ops lib).hbanks
        (ceilDiv words (memory_gen words width ops lib).hbanks) width lib).vbanks =
      ceilDiv (ceilDiv words (memory_gen words width ops lib).hbanks) m.words
    rw [hres]
    rfl
  · show (find_vbanks (memory_gen words width ops lib).need_dual_port
        (memory_gen words width ops lib).dbanks (memory_gen words width ops lib).hbanks
        (ceilDiv words (memory_gen words width ops lib).hbanks) width lib).area = some
          (((memory_gen words width ops lib).dbanks : ℚ) *
            ((memory_gen words width ops lib).hbanks : ℚ) *
            (((find_vbanks (memory_gen words width ops lib).need_dual_port
                (memory_gen words width ops lib).dbanks (memory_gen words width ops lib).hbanks
                (ceilDiv words (memory_gen words width ops lib).hbanks) width lib).vbanks : Nat) : ℚ) *
            (((find_vbanks (memory_gen words width ops lib).need_dual_port
                (memory_gen words width ops lib).dbanks (memory_gen words width ops lib).hbanks
                (ceilDiv words (memory_gen words width ops lib).hbanks) width lib).hhbanks : Nat) : ℚ) *
            m.area)
    rw [hres]
    simp only [chosenState]
    unfold estArea
    congr 1
    ring
  · intro m' hmem hq'
    exact hmin m' hmem (qualifies_false _ _ hq')
  · intro m' hmem hq'
    exact hfirst m' hmem (qualifies_false _ _ hq')

/-- Witness for C4 at the concrete request `M 2048 32 0w:4r` against the
two-macro library: the dual-port macro qualifies. -/
theorem bank_selection_minimizes_area_witness :
    (∃ m0 ∈ libC1, qualifies (memory_gen 2048 32 opsC1 libC1).need_dual_port m0 = true) ∧
    (∃ m, (memory_gen 2048 32 opsC1 libC1).bank_type = some m ∧
      qualifies (memory_gen 2048 32 opsC1 libC1).need_dual_port m = true ∧
      (memory_gen 2048 32 opsC1 libC1).hhbanks = ceilDiv 32 m.width ∧
      (memory_gen 2048 32 opsC1 libC1).vbanks =
        ceilDiv (ceilDiv 2048 (memory_gen 2048 32 opsC1 libC1).hbanks) m.words ∧
      (memory_gen 2048 32 opsC1 libC1).area = some
        (((memory_gen 2048 32 opsC1 libC1).dbanks : ℚ) *
          ((memory_gen 2048 32 opsC1 libC1).hbanks : ℚ) *
          ((memory_gen 2048 32 opsC1 libC1).vbanks : ℚ) *
          ((memory_gen 2048 32 opsC1 libC1).hhbanks : ℚ) * m.area) ∧
      (∀ m' ∈ libC1, qualifies (memory_gen 2048 32 opsC1 libC1).need_dual_port m' = true →
        planEstArea 2048 32 opsC1 libC1 m ≤ planEstArea 2048 32 opsC1 libC1 m') ∧
      (∃ l₁ l₂, libC1 = l₁ ++ m :: l₂ ∧
        ∀ m' ∈ l₁, qualifies (memory_gen 2048 32 opsC1 libC1).need_dual_port m' = true →
          planEstArea 2048 32 opsC1 libC1 m < planEstArea 2048 32 opsC1 libC1 m')) :=
  ⟨⟨⟨"SRAM_1Kx32_2P", 1024, 32, 9/5, 2⟩,
      List.mem_cons_of_mem _ (List.mem_cons_self _ _), by decide⟩,
    bank_selection_minimizes_area 2048 32 opsC1 libC1
      ⟨⟨"SRAM_1Kx32_2P", 1024, 32, 9/5, 2⟩,
        List.mem_cons_of_mem _ (List.mem_cons_self _ _), by decide⟩⟩

/-! ## Emitted module port list -/

lemma flatten_map_length {α β : Type} (f : α → List β) (c : Nat)
    (hf : ∀ a, (f a).length = c) :
    ∀ l : List α, ((l.map f).flatten).length = c * l.length := by
  intro l
  induction l with
  | nil => simp
  | cons a l ih =>
    simp only [List.map_cons, List.flatten_cons, List.length_append, hf a, ih,
      List.length_cons]
    ring

lemma flatten_map_drop {α β : Type} (f : α → List β) (c : Nat)
    (hf : ∀ a, (f a).length = c) :
    ∀ (l : List α) (k : Nat),
      ((l.map f).flatten).drop (c * k) = ((l.drop k).map f).flatten := by
  intro l
  induction l with
  | nil => intro k; simp
  | cons a l ih =>
    intro k
    cases k with
    | zero => simp
    | succ k =>
      have h1 : c * (k + 1) = (f a).length + c * k := by rw [hf a]; ring
      simp only [List.map_cons, List.flatten_cons, List.drop_succ_cons]
      rw [h1, List.drop_append]
      exact ih k

lemma range'_drop : ∀ (i s n : Nat),
    (List.range' s n).drop i = List.range' (s + i) (n - i) := by
  intro i
  induction i with
  | zero => intro s n; simp
  | succ i ih =>
    intro s n
    cases n with
    | zero => simp
    | succ n =>
      rw [List.range'_succ, List.drop_succ_cons, ih (s + 1) n]
      have e1 : s + 1 + i = s + (i + 1) := by omega
      have e2 : n - i = n + 1 - (i + 1) := by omega
      rw [e1, e2]

/-- C9: the emitted module's external port list is `CLK` first, then for
each write interface `i` in `[0, W)` the five ports `CE_i, A_i, D_i, WE_i,
WEM_i`, then for each read interface `i` in `[W, W + R)` the three ports
`CE_i, A_i, Q_i`, for exactly `1 + 5 * W + 3 * R` scalar external ports. -/
theorem module_ports_shape (name : String) (W R : Nat) :
    (modulePorts name W R).length = 1 + 5 * W + 3 * R ∧
    (modulePorts name W R).take 1 = ["CLK"] ∧
    (∀ i, i < W → ((modulePorts name W R).drop (1 + 5 * i)).take 5 = writePorts name i) ∧
    (∀ i, i < R → ((modulePorts name W R).drop (1 + 5 * W + 3 * i)).take 3 =
      readPorts name (W + i)) := by
  have hwl : ∀ i, (writePorts name i).length = 5 := fun i => rfl
  have hrl : ∀ i, (readPorts name i).length = 3 := fun i => rfl
  have hWlen : (((List.range' 0 W).map (writePorts name)).flatten).length = 5 * W := by
    rw [flatten_map_length (writePorts name) 5 hwl, List.length_range']
  have hRlen : (((List.range' W R).map (readPorts name)).flatten).length = 3 * R := by
    rw [flatten_map_length (readPorts name) 3 hrl, List.length_range']
  refine ⟨?_, rfl, ?_, ?_⟩
  · simp only [modulePorts, List.length_cons, List.length_append, hWlen, hRlen]
    omega
  · intro i hi
    have h1 : 1 + 5 * i = (5 * i) + 1 := by omega
    simp only [modulePorts]
    rw [h1, List.drop_succ_cons]
    have h2 : 5 * i ≤ (((List.range' 0 W).map (writePorts name)).flatten).length := by
      rw [hWlen]; omega
    rw [List.drop_append_of_le_length h2, flatten_map_drop (writePorts name) 5 hwl,
      range'_drop]
    have h3 : W - i = (W - i - 1) + 1 := by omega
    rw [h3, List.range'_succ, List.map_cons, List.flatten_cons, List.append_assoc,
      List.take_left' (hwl (0 + i))]
    rw [Nat.zero_add]
  · intro i hi
    have h1 : 1 + 5 * W + 3 * i = (5 * W + 3 * i) + 1 := by omega
    simp only [modulePorts]
    rw [h1, List.drop_succ_cons]
    have h2 : 5 * W + 3 * i =
        (((List.range' 0 W).map (writePorts name)).flatten).length + 3 * i := by
      rw [hWlen]
    rw [h2, List.drop_append, flatten_map_drop (readPorts name) 3 hrl, range'_drop]
    have h3 : R - i = (R - i - 1) + 1 := by omega
    rw [h3, List.range'_succ, List.map_cons, List.flatten_cons,
      List.take_left' (hrl (W + i))]

/-- Witness for C9 with one write interface and four read interfaces. -/
theorem module_ports_shape_witness :
    (modulePorts ("M") 1 4).length = 1 + 5 * 1 + 3 * 4 ∧
    (modulePorts ("M") 1 4).take 1 = ["CLK"] ∧
    ((modulePorts ("M") 1 4).drop (1 + 5 * 0)).take 5 = writePorts ("M") 0 ∧
    ((modulePorts ("M") 1 4).drop (1 + 5 * 1 + 3 * 3)).take 3 = readPorts ("M") (1 + 3) := by
  have h := module_ports_shape ("M") 1 4
  exact ⟨h.1, h.2.1, h.2.2.1 0 (by decide), h.2.2.2 3 (by decide)⟩

/-- Witness for C3's amended statement at the request whose single
operation is the parse of `1w:0r`. -/
theorem interfaces_max_with_one_witness :
    (⟨0, pattern.modulo, 1, pattern.modulo⟩ : memory_operation) ∈ ops1w0r ∧
    (⟨0, pattern.modulo, 1, pattern.modulo⟩ : memory_operation).rn ≤
      (memory_gen 1024 32 ops1w0r libC1).read_interfaces :=
  ⟨by decide, (interfaces_max_with_one 1024 32 ops1w0r libC1).1.2.1
      ⟨0, pattern.modulo, 1, pattern.modulo⟩ (by decide)⟩
